import Mathlib

/-!
Shallow embedding of the cellium-auth authentication service.

Source files embedded:
  - src/app/core/security.py   (password hashing, JWT issue/verify)
  - src/app/models/models.py   (User / Token records, Token.generate_token)
  - src/app/services/auth_service.py (UserService, TokenService)
  - src/app/routers/auth.py    (login endpoint logic)

The SQLAlchemy session is modelled as an explicit record of two lists
(users and tokens); `query(...).filter(...).first()` becomes `List.find?`
and in-place ORM mutation followed by `commit()` becomes replacing the
first matching element of the list.  `datetime.utcnow()` is passed in as
an explicit integer timestamp `now`.
-/

namespace CelliumAuth

/-! ### SHA-256 (model of Python `hashlib.sha256(...).hexdigest()`)

The source hashes passwords with `hashlib.sha256(password.encode()).hexdigest()`.
`hashlib` is the Python standard library, embedded here as a full executable
SHA-256 over byte lists, with 32-bit words represented as `Nat` reduced
modulo 2^32. -/

namespace Sha256

def mask32 : Nat := 4294967296

def add32 (a b : Nat) : Nat := (a + b) % mask32

def rotr (n x : Nat) : Nat := (x >>> n ||| x <<< (32 - n)) % mask32

def not32 (x : Nat) : Nat := Nat.xor x 4294967295

def bigSigma0 (x : Nat) : Nat := Nat.xor (Nat.xor (rotr 2 x) (rotr 13 x)) (rotr 22 x)

def bigSigma1 (x : Nat) : Nat := Nat.xor (Nat.xor (rotr 6 x) (rotr 11 x)) (rotr 25 x)

def smallSigma0 (x : Nat) : Nat := Nat.xor (Nat.xor (rotr 7 x) (rotr 18 x)) (x >>> 3)

def smallSigma1 (x : Nat) : Nat := Nat.xor (Nat.xor (rotr 17 x) (rotr 19 x)) (x >>> 10)

def ch (x y z : Nat) : Nat := Nat.xor (Nat.land x y) (Nat.land (not32 x) z)

def maj (x y z : Nat) : Nat := Nat.xor (Nat.xor (Nat.land x y) (Nat.land x z)) (Nat.land y z)

def kConsts : List Nat :=
  [1116352408, 1899447441, 3049323471, 3921009573, 961987163, 1508970993,
   2453635748, 2870763221, 3624381080, 310598401, 607225278, 1426881987,
   1925078388, 2162078206, 2614888103, 3248222580, 3835390401, 4022224774,
   264347078, 604807628, 770255983, 1249150122, 1555081692, 1996064986,
   2554220882, 2821834349, 2952996808, 3210313671, 3336571891, 3584528711,
   113926993, 338241895, 666307205, 773529912, 1294757372, 1396182291,
   1695183700, 1986661051, 2177026350, 2456956037, 2730485921, 2820302411,
   3259730800, 3345764771, 3516065817, 3600352804, 4094571909, 275423344,
   430227734, 506948616, 659060556, 883997877, 958139571, 1322822218,
   1537002063, 1747873779, 1955562222, 2024104815, 2227730452, 2361852424,
   2428436474, 2756734187, 3204031479, 3329325298]

def hInit : List Nat :=
  [1779033703, 3144134277, 1013904242, 2773480762,
   1359893119, 2600822924, 528734635, 1541459225]

/-- Big-endian 8-byte encoding of the message bit length. -/
def lenBE (n : Nat) : List Nat :=
  [n >>> 56 % 256, n >>> 48 % 256, n >>> 40 % 256, n >>> 32 % 256,
   n >>> 24 % 256, n >>> 16 % 256, n >>> 8 % 256, n % 256]

/-- Pad a byte message to a multiple of 64 bytes: append 0x80, zeros, and
the 64-bit big-endian bit length. -/
def pad (msg : List Nat) : List Nat :=
  let l := msg.length
  msg ++ [128] ++ List.replicate ((119 - l % 64) % 64) 0 ++ lenBE (8 * l)

/-- The 16 big-endian 32-bit words of one 64-byte block. -/
def wordsOfBlock (b : List Nat) : List Nat :=
  (List.range 16).map fun i =>
    b.getD (4 * i) 0 * 16777216 + b.getD (4 * i + 1) 0 * 65536 +
      b.getD (4 * i + 2) 0 * 256 + b.getD (4 * i + 3) 0

/-- Extend the 16-word message schedule by one word. -/
def extendStep (w : List Nat) : List Nat :=
  let n := w.length
  w ++ [add32 (add32 (smallSigma1 (w.getD (n - 2) 0)) (w.getD (n - 7) 0))
          (add32 (smallSigma0 (w.getD (n - 15) 0)) (w.getD (n - 16) 0))]

def extendAll (w : List Nat) : List Nat :=
  (List.range 48).foldl (fun acc _ => extendStep acc) w

structure Regs where
  a : Nat
  b : Nat
  c : Nat
  d : Nat
  e : Nat
  f : Nat
  g : Nat
  h : Nat

def step (r : Regs) (wk : Nat × Nat) : Regs :=
  let t1 := add32 r.h (add32 (bigSigma1 r.e) (add32 (ch r.e r.f r.g) (add32 wk.1 wk.2)))
  let t2 := add32 (bigSigma0 r.a) (maj r.a r.b r.c)
  { a := add32 t1 t2, b := r.a, c := r.b, d := r.c,
    e := add32 r.d t1, f := r.e, g := r.f, h := r.g }

def compress (hs : List Nat) (block : List Nat) : List Nat :=
  let w := extendAll (wordsOfBlock block)
  let r0 : Regs :=
    { a := hs.getD 0 0, b := hs.getD 1 0, c := hs.getD 2 0, d := hs.getD 3 0,
      e := hs.getD 4 0, f := hs.getD 5 0, g := hs.getD 6 0, h := hs.getD 7 0 }
  let r := (w.zip kConsts).foldl step r0
  [add32 (hs.getD 0 0) r.a, add32 (hs.getD 1 0) r.b, add32 (hs.getD 2 0) r.c,
   add32 (hs.getD 3 0) r.d, add32 (hs.getD 4 0) r.e, add32 (hs.getD 5 0) r.f,
   add32 (hs.getD 6 0) r.g, add32 (hs.getD 7 0) r.h]

/-- Process `n` consecutive 64-byte blocks of `msg`. -/
def processBlocks (hs : List Nat) (msg : List Nat) : Nat → List Nat
  | 0 => hs
  | k + 1 => processBlocks (compress hs (msg.take 64)) (msg.drop 64) k

/-- SHA-256 of a byte message, as the eight 32-bit hash words. -/
def sha256Words (msg : List Nat) : List Nat :=
  let p := pad msg
  processBlocks hInit p (p.length / 64)

def hexDigit (n : Nat) : Char :=
  if n < 10 then Char.ofNat (48 + n) else Char.ofNat (87 + n)

/-- Lowercase hexadecimal rendering of one 32-bit word (8 hex digits). -/
def wordHex (n : Nat) : List Char :=
  (List.range 8).map fun i => hexDigit (n >>> (4 * (7 - i)) % 16)

/-- `hashlib.sha256(msg).hexdigest()`: 64 lowercase hex characters. -/
def sha256Hex (msg : List Nat) : String :=
  String.mk ((sha256Words msg).map wordHex).flatten

end Sha256

/-- UTF-8 encoding of one character (model of Python `str.encode()`). -/
def utf8Char (c : Char) : List Nat :=
  let n := c.toNat
  if n < 128 then [n]
  else if n < 2048 then [192 + n / 64, 128 + n % 64]
  else if n < 65536 then [224 + n / 4096, 128 + n / 64 % 64, 128 + n % 64]
  else [240 + n / 262144, 128 + n / 4096 % 64, 128 + n / 64 % 64, 128 + n % 64]

/-- UTF-8 encoding of a string (model of Python `str.encode()`). -/
def utf8Encode (s : String) : List Nat :=
  (s.toList.map utf8Char).flatten

/-! ### src/app/core/security.py — Credential Hasher -/

/-- `get_password_hash(password)`: SHA-256 hex digest of the UTF-8 password,
as in `hashlib.sha256(password.encode()).hexdigest()`. -/
def get_password_hash (password : String) : String :=
  Sha256.sha256Hex (utf8Encode password)

/-- `verify_password(plain_password, hashed_password)`:
`get_password_hash(plain_password) == hashed_password`. -/
def verify_password (plain_password hashed_password : String) : Bool :=
  get_password_hash plain_password == hashed_password

/-! ### src/app/core/security.py — Session Token Codec

The source signs and verifies JWTs through the external `python-jose`
library.  The library is embedded at the level of its contract: a wire
token is either a payload signed with a given secret and algorithm, or a
malformed string; `jwt.decode` returns the payload exactly when the
secret and algorithm match and the embedded expiry is still in the
future, and signals `JWTError` (here `none`) otherwise.  The payload is
modelled by the two claims the service reads and writes: the optional
`sub` claim and the `exp` instant.  Timestamps and durations are integer
seconds. -/

/-- JWT payload as used by the service: optional subject claim plus the
absolute expiry instant written by `create_access_token`. -/
structure Claims where
  sub : Option String
  exp : Int
deriving DecidableEq

/-- Wire form of a JWT: a payload signed under a secret and algorithm,
or a string that does not parse as a JWT at all. -/
inductive JwtWire where
  | signed (claims : Claims) (secret : String) (alg : String)
  | malformed (raw : String)
deriving DecidableEq

/-- `jose.jwt.encode(claims, key, algorithm)`. -/
def jwtEncode (claims : Claims) (secret alg : String) : JwtWire :=
  .signed claims secret alg

/-- `jose.jwt.decode(token, key, algorithms)`: the payload if the token is
well formed, signed under the given secret with an accepted algorithm,
and not yet expired; `none` (for `JWTError`) otherwise. -/
def jwtDecode (tok : JwtWire) (secret : String) (algs : List String) (now : Int) :
    Option Claims :=
  match tok with
  | .signed c s a => if s = secret ∧ a ∈ algs ∧ now < c.exp then some c else none
  | .malformed _ => none

/-- `JWT_SECRET_KEY` with the environment unset: the source's default. -/
def JWT_SECRET_KEY : String := "your-super-secret-jwt-key-change-in-production"

/-- `JWT_ALGORITHM` with the environment unset: the source's default. -/
def JWT_ALGORITHM : String := "HS256"

/-- `JWT_ACCESS_TOKEN_EXPIRE_MINUTES` with the environment unset. -/
def JWT_ACCESS_TOKEN_EXPIRE_MINUTES : Int := 30

/-- `create_access_token(data, expires_delta)`: copies the claims, sets
`exp` to now plus the given delta (Python `if expires_delta:` is false
both for `None` and for a zero timedelta, falling back to the configured
default) and signs.  The `data` dict is its `sub` entry here, the only
key callers pass. -/
def create_access_token (sub : Option String) (expires_delta : Option Int) (now : Int) :
    JwtWire :=
  let expire : Int :=
    match expires_delta with
    | some d => if d = 0 then now + JWT_ACCESS_TOKEN_EXPIRE_MINUTES * 60 else now + d
    | none => now + JWT_ACCESS_TOKEN_EXPIRE_MINUTES * 60
  jwtEncode { sub := sub, exp := expire } JWT_SECRET_KEY JWT_ALGORITHM

/-- `verify_token(token)`: decode under the configured secret and
algorithm, returning `None` on any `JWTError`. -/
def verify_token (token : JwtWire) (now : Int) : Option Claims :=
  jwtDecode token JWT_SECRET_KEY [JWT_ALGORITHM] now

/-- Subject claim carried by a wire token, if any. -/
def jwtSub : JwtWire → Option String
  | .signed c _ _ => c.sub
  | .malformed _ => none

/-! ### src/app/models/models.py — data model -/

/-- Row of the `users` table. -/
structure User where
  id : Nat
  email : String
  username : String
  hashed_password : String
  is_active : Bool
  is_admin : Bool
  created_at : Int
  updated_at : Int
deriving DecidableEq

/-- Row of the `tokens` table. -/
structure Token where
  id : Nat
  token : String
  name : String
  user_id : Nat
  is_active : Bool
  created_at : Int
  expires_at : Option Int
  last_used_at : Option Int
  description : Option String
deriving DecidableEq

/-- The database session state: the two tables. -/
structure DB where
  users : List User
  tokens : List Token
deriving DecidableEq

/-- `Token.generate_token(self)`: the string
`f"user:\x7bself.owner.username\x7d:\x7buuid.uuid4().hex[:12]\x7d"`.
`uuid.uuid4().hex` (Python standard library) is passed in as `uuidHex`,
a 32-character lowercase-hex string; the slice `[:12]` keeps its first
12 characters. -/
def generate_token (username uuidHex : String) : String :=
  "user:" ++ username ++ ":" ++ String.mk (uuidHex.toList.take 12)

/-- Lowercase hexadecimal digit: 0-9 or a-f. -/
def isLowerHexChar (c : Char) : Bool :=
  (48 ≤ c.toNat && c.toNat ≤ 57) || (97 ≤ c.toNat && c.toNat ≤ 102)

/-! ### src/app/services/auth_service.py — UserService / TokenService -/

/-- Replace the first element satisfying `p` by its image under `f`:
the ORM pattern of mutating the object returned by `first()`. -/
def updateFirst (p : α → Bool) (f : α → α) : List α → List α
  | [] => []
  | x :: xs => if p x then f x :: xs else x :: updateFirst p f xs

/-- `UserService.get_user_by_username(db, username)`. -/
def get_user_by_username (db : DB) (username : String) : Option User :=
  db.users.find? fun u => u.username == username

/-- `UserService.authenticate_user(db, username, password)`: the user if
found and the password verifies, else `None`. -/
def authenticate_user (db : DB) (username password : String) : Option User :=
  match get_user_by_username db username with
  | none => none
  | some user => if verify_password password user.hashed_password then some user else none

/-- `TokenService.get_token_by_string(db, token_string)`: first token with
that exact string and `is_active == True`. -/
def get_token_by_string (db : DB) (token_string : String) : Option Token :=
  db.tokens.find? fun t => t.token == token_string && t.is_active

/-- `TokenService.get_user_tokens(db, user_id)`: all active tokens of the
user. -/
def get_user_tokens (db : DB) (user_id : Nat) : List Token :=
  db.tokens.filter fun t => t.user_id == user_id && t.is_active

/-- `TokenService.revoke_token(db, token_id, user_id)`: find the first
token with that id owned by that user (active or not); if present set its
`is_active` to `False` and return `True`, else return `False`. -/
def revoke_token (db : DB) (token_id user_id : Nat) : Bool × DB :=
  match db.tokens.find? (fun t => t.id == token_id && t.user_id == user_id) with
  | some _ =>
      (true, { db with
        tokens := updateFirst (fun t => t.id == token_id && t.user_id == user_id)
          (fun t => { t with is_active := false }) db.tokens })
  | none => (false, db)

/-- The check `token.expires_at and token.expires_at < datetime.utcnow()`:
a non-`None` datetime is always truthy, `None` is falsy. -/
def isExpired (t : Token) (now : Int) : Bool :=
  match t.expires_at with
  | some e => decide (e < now)
  | none => false

/-- `TokenService.validate_token_and_get_user(db, token_string)`: look up
the active token by string; `None` if absent; `None` if `expires_at` is
set and before now; otherwise write `last_used_at := now` to the found
row, commit, and return `token.owner` (the user row referenced by
`user_id`). -/
def validate_token_and_get_user (db : DB) (token_string : String) (now : Int) :
    Option User × DB :=
  match get_token_by_string db token_string with
  | none => (none, db)
  | some token =>
    if isExpired token now then (none, db)
    else
      let db' : DB := { db with
        tokens := updateFirst (fun t => t.token == token_string && t.is_active)
          (fun t => { t with last_used_at := some now }) db.tokens }
      (db'.users.find? (fun u => u.id == token.user_id), db')

/-- `TokenService.validate_jwt_and_get_user(db, jwt_token)`: verify the
JWT, read its `sub` claim, and look the user up by username; every step
is a read, the session is returned unchanged alongside the result. -/
def validate_jwt_and_get_user (db : DB) (jwt_token : JwtWire) (now : Int) :
    Option User × DB :=
  match verify_token jwt_token now with
  | none => (none, db)
  | some payload =>
    match payload.sub with
    | none => (none, db)
    | some username => (get_user_by_username db username, db)

/-! ### src/app/routers/auth.py — login -/

/-- Error outcomes of the login route: HTTP 401 incorrect username or
password, HTTP 400 inactive user. -/
inductive LoginError where
  | invalidCredentials
  | inactiveAccount
deriving DecidableEq

/-- `login(request, db)`: authenticate; 401 if that fails, 400 if the
user is inactive, else issue an access token with `sub = user.username`
(no explicit delta) and return it with the user. -/
def login (db : DB) (username password : String) (now : Int) :
    Except LoginError (User × JwtWire) :=
  match authenticate_user db username password with
  | none => .error .invalidCredentials
  | some user =>
    if user.is_active then
      .ok (user, create_access_token (some user.username) none now)
    else
      .error .inactiveAccount

/-! ### Sample records used to instantiate the theorems on concrete stores -/

/-- A concrete user row. -/
def sampleUser (i : Nat) (uname hpw : String) (act : Bool) : User :=
  { id := i, email := uname ++ "@example.com", username := uname,
    hashed_password := hpw, is_active := act, is_admin := false,
    created_at := 0, updated_at := 0 }

/-- A concrete token row. -/
def sampleToken (i : Nat) (s : String) (uid : Nat) (act : Bool) (exp : Option Int) :
    Token :=
  { id := i, token := s, name := "tok", user_id := uid, is_active := act,
    created_at := 0, expires_at := exp, last_used_at := none, description := none }

/-- Liveness of an API token as the claims state it: flagged active, and
either no expiry or an expiry not in the past. -/
def tokenLive (t : Token) (now : Int) : Prop :=
  t.is_active = true ∧
    (t.expires_at = none ∨ ∃ e, t.expires_at = some e ∧ ¬ e < now)

/-! ### Theorems.  First, a sanity check of the hash embedding against
the published SHA-256 test vector for the string abc. -/

/-- Known SHA-256 test vector, checking the embedding of the hash. -/
theorem sha256_abc :
    get_password_hash "abc" =
      "ba7816bf8f01cfea414140de5dae2223b00361a396177a9cb410ff61f20015ad" := by
  decide

/-! ### Helper lemmas about `find?` and `updateFirst` -/

/-- A successful `find?` splits the list around the first hit, and
`updateFirst` rewrites exactly that element. -/
theorem find?_decomp {α : Type} (p : α → Bool) (f : α → α) :
    ∀ (l : List α) (a : α), l.find? p = some a →
      ∃ l1 l2, l = l1 ++ a :: l2 ∧ (∀ x ∈ l1, p x = false) ∧ p a = true ∧
        updateFirst p f l = l1 ++ f a :: l2 := by
  intro l
  induction l with
  | nil => intro a h; simp [List.find?] at h
  | cons x xs ih =>
    intro a h
    cases hpx : p x with
    | true =>
      rw [List.find?_cons_of_pos xs hpx] at h
      cases h
      exact ⟨[], xs, by simp, by simp, hpx, by simp [updateFirst, hpx]⟩
    | false =>
      rw [List.find?_cons_of_neg xs (by simp [hpx])] at h
      obtain ⟨l1, l2, hl, hl1, hpa, hupd⟩ := ih a h
      exact ⟨x :: l1, l2, by simp [hl], by
        intro y hy
        rcases List.mem_cons.mp hy with rfl | hy'
        · exact hpx
        · exact hl1 y hy', hpa, by simp [updateFirst, hpx, hupd]⟩

/-- `all` survives `take`. -/
theorem all_take {α : Type} (p : α → Bool) (l : List α) (n : Nat)
    (h : l.all p = true) : (l.take n).all p = true := by
  rw [List.all_eq_true] at h ⊢
  exact fun x hx => h x (List.mem_of_mem_take hx)

/-- C1: `validate_token_and_get_user` returns the owning account exactly
when the store holds a token with that exact string, flagged active, with
no expiry or an expiry not in the past; in every other case it returns
none.  On success the found token's `last_used_at` is set to `now` and
nothing else in the store changes; on failure the store is untouched.
Hypotheses: token strings and user ids are unique (database unique
columns) and every token's `user_id` references a stored user (foreign
key). -/
theorem validate_token_spec (db : DB) (s : String) (now : Int)
    (hTok : (db.tokens.map Token.token).Nodup)
    (hFk : ∀ t ∈ db.tokens, ∃ u ∈ db.users, u.id = t.user_id) :
    ((∃ u, (validate_token_and_get_user db s now).1 = some u) ↔
      ∃ t ∈ db.tokens, t.token = s ∧ tokenLive t now)
    ∧ (∀ u, (validate_token_and_get_user db s now).1 = some u →
        ∃ t l1 l2, db.tokens = l1 ++ t :: l2 ∧ t.token = s ∧ tokenLive t now ∧
          u ∈ db.users ∧ u.id = t.user_id ∧
          (validate_token_and_get_user db s now).2.users = db.users ∧
          (validate_token_and_get_user db s now).2.tokens =
            l1 ++ { t with last_used_at := some now } :: l2)
    ∧ ((validate_token_and_get_user db s now).1 = none →
        (validate_token_and_get_user db s now).2 = db) := by
  have hbeq : ∀ t : Token, (t.token == s && t.is_active) = true ↔
      (t.token = s ∧ t.is_active = true) := by
    intro t; simp
  cases hfind : db.tokens.find? (fun t => t.token == s && t.is_active) with
  | none =>
    have hres : validate_token_and_get_user db s now = (none, db) := by
      simp [validate_token_and_get_user, get_token_by_string, hfind]
    rw [hres]
    refine ⟨?_, ?_, ?_⟩
    · constructor
      · rintro ⟨u, hu⟩; simp at hu
      · rintro ⟨t, ht, hts, hact, _⟩
        exact absurd ((hbeq t).mpr ⟨hts, hact⟩)
          (by simpa using List.find?_eq_none.mp hfind t ht)
    · intro u hu; simp at hu
    · intro _; rfl
  | some token =>
    have hmem : token ∈ db.tokens := List.mem_of_find?_eq_some hfind
    have hptok : token.token = s ∧ token.is_active = true := by
      have h := List.find?_some hfind
      simpa using h
    cases hexp : isExpired token now with
    | true =>
      obtain ⟨e, he, helt⟩ : ∃ e, token.expires_at = some e ∧ e < now := by
        unfold isExpired at hexp
        cases hcase : token.expires_at with
        | none => rw [hcase] at hexp; simp at hexp
        | some e => rw [hcase] at hexp; exact ⟨e, rfl, by simpa using hexp⟩
      have hres : validate_token_and_get_user db s now = (none, db) := by
        simp [validate_token_and_get_user, get_token_by_string, hfind, hexp]
      rw [hres]
      refine ⟨?_, ?_, ?_⟩
      · constructor
        · rintro ⟨u, hu⟩; simp at hu
        · rintro ⟨t, ht, hts, _, hlive⟩
          have : t = token :=
            List.inj_on_of_nodup_map hTok ht hmem (by rw [hts, hptok.1])
          subst this
          rcases hlive with hnone | ⟨e', he', hlt'⟩
          · rw [hnone] at he; exact Option.noConfusion he
          · rw [he'] at he; cases he; exact absurd helt hlt'
      · intro u hu; simp at hu
      · intro _; rfl
    | false =>
      obtain ⟨u0, hu0mem, hu0id⟩ := hFk token hmem
      have hfound : (db.users.find? (fun u => u.id == token.user_id)).isSome = true :=
        List.find?_isSome.mpr ⟨u0, hu0mem, by simp [hu0id]⟩
      obtain ⟨u1, hu1⟩ := Option.isSome_iff_exists.mp hfound
      have hres : validate_token_and_get_user db s now =
          (some u1, { db with
            tokens := updateFirst (fun t => t.token == s && t.is_active)
              (fun t => { t with last_used_at := some now }) db.tokens }) := by
        simp [validate_token_and_get_user, get_token_by_string, hfind, hexp, hu1]
      have hlive : tokenLive token now := by
        refine ⟨hptok.2, ?_⟩
        unfold isExpired at hexp
        cases hcase : token.expires_at with
        | none => exact Or.inl rfl
        | some e =>
          rw [hcase] at hexp
          exact Or.inr ⟨e, rfl, by simpa using hexp⟩
      obtain ⟨l1, l2, hdec, -, -, hupd⟩ :=
        find?_decomp (fun t => t.token == s && t.is_active)
          (fun t => { t with last_used_at := some now }) db.tokens token hfind
      rw [hres]
      refine ⟨?_, ?_, ?_⟩
      · exact ⟨fun _ => ⟨token, hmem, hptok.1, hlive⟩, fun _ => ⟨u1, rfl⟩⟩
      · intro u hu
        have : u1 = u := by simpa using hu
        subst this
        exact ⟨token, l1, l2, hdec, hptok.1, hlive,
          List.mem_of_find?_eq_some hu1,
          by simpa using List.find?_some hu1, rfl, hupd⟩
      · intro h; simp at h

/-- Witness for C1: the characterization instantiated on a one-user,
one-token store. -/
theorem validate_token_spec_witness :
    (∃ u, (validate_token_and_get_user
        ⟨[sampleUser 1 "alice" "h" true],
          [sampleToken 7 "user:alice:0123456789ab" 1 true none]⟩
        "user:alice:0123456789ab" 5).1 = some u) ↔
      ∃ t ∈ [sampleToken 7 "user:alice:0123456789ab" 1 true none],
        t.token = "user:alice:0123456789ab" ∧ tokenLive t 5 :=
  (validate_token_spec
    ⟨[sampleUser 1 "alice" "h" true],
      [sampleToken 7 "user:alice:0123456789ab" 1 true none]⟩
    "user:alice:0123456789ab" 5 (by decide) (by decide)).1

/-- Counterexample to C2 as stated: the claim says revoking an
already-inactive token returns the not-found/not-owned result (false),
but `revoke_token` filters only on id and owner, never on `is_active`,
so revoking one's own already-inactive token returns true. -/
theorem revoke_inactive_counterexample :
    (revoke_token
      ⟨[sampleUser 1 "alice" "h" true],
        [sampleToken 7 "user:alice:0123456789ab" 1 false none]⟩ 7 1).1 = true := by
  decide

/-- C2 (amended): `revoke_token` returns true and flips the first token
with that id and owner to inactive exactly when such a token exists,
regardless of its current `is_active` flag; otherwise it returns false
and leaves the store unchanged.  A token owned by a different account is
never mutated. -/
theorem revoke_token_spec (db : DB) (token_id user_id : Nat) :
    ((revoke_token db token_id user_id).1 = true ↔
      ∃ t ∈ db.tokens, t.id = token_id ∧ t.user_id = user_id)
    ∧ ((revoke_token db token_id user_id).1 = false →
        (revoke_token db token_id user_id).2 = db)
    ∧ ((revoke_token db token_id user_id).1 = true →
        ∃ t l1 l2, db.tokens = l1 ++ t :: l2 ∧ t.id = token_id ∧ t.user_id = user_id ∧
          (revoke_token db token_id user_id).2.users = db.users ∧
          (revoke_token db token_id user_id).2.tokens =
            l1 ++ { t with is_active := false } :: l2)
    ∧ (∀ t ∈ db.tokens, t.user_id ≠ user_id →
        t ∈ (revoke_token db token_id user_id).2.tokens) := by
  cases hfind : db.tokens.find? (fun t => t.id == token_id && t.user_id == user_id) with
  | none =>
    have hres : revoke_token db token_id user_id = (false, db) := by
      simp [revoke_token, hfind]
    rw [hres]
    refine ⟨?_, fun _ => rfl, ?_, ?_⟩
    · constructor
      · intro h; simp at h
      · rintro ⟨t, ht, hid, huid⟩
        exact absurd (by simp [hid, huid] : (t.id == token_id && t.user_id == user_id) = true)
          (by simpa using List.find?_eq_none.mp hfind t ht)
    · intro h; simp at h
    · intro t ht _; exact ht
  | some tk =>
    have hptk : tk.id = token_id ∧ tk.user_id = user_id := by
      have h := List.find?_some hfind
      simpa using h
    have hmem : tk ∈ db.tokens := List.mem_of_find?_eq_some hfind
    obtain ⟨l1, l2, hdec, -, -, hupd⟩ :=
      find?_decomp (fun t => t.id == token_id && t.user_id == user_id)
        (fun t => { t with is_active := false }) db.tokens tk hfind
    have hres : revoke_token db token_id user_id =
        (true, { db with
          tokens := updateFirst (fun t => t.id == token_id && t.user_id == user_id)
            (fun t => { t with is_active := false }) db.tokens }) := by
      simp [revoke_token, hfind]
    rw [hres]
    refine ⟨⟨fun _ => ⟨tk, hmem, hptk⟩, fun _ => rfl⟩, ?_, ?_, ?_⟩
    · intro h; simp at h
    · intro _
      exact ⟨tk, l1, l2, hdec, hptk.1, hptk.2, rfl, hupd⟩
    · intro t ht hne
      have htne : t ≠ tk := fun h => hne (h ▸ hptk.2)
      rw [hdec] at ht
      simp only [hupd, List.mem_append, List.mem_cons] at ht ⊢
      rcases ht with h1 | h2 | h3
      · exact Or.inl h1
      · exact absurd h2 htne
      · exact Or.inr (Or.inr h3)

/-- Witness for C2 (amended): revoking a token of another account leaves
a concrete store unchanged. -/
theorem revoke_token_spec_witness :
    (revoke_token ⟨[sampleUser 1 "alice" "h" true],
        [sampleToken 7 "user:alice:0123456789ab" 1 true none]⟩ 7 2).2 =
      ⟨[sampleUser 1 "alice" "h" true],
        [sampleToken 7 "user:alice:0123456789ab" 1 true none]⟩ :=
  (revoke_token_spec ⟨[sampleUser 1 "alice" "h" true],
      [sampleToken 7 "user:alice:0123456789ab" 1 true none]⟩ 7 2).2.1 (by decide)

/-- C5: an expired token that is still flagged active is rejected and the
store, in particular the record and its active flag, is returned exactly
as it was: expiry is a view-time check, not a state transition.  Token
strings are assumed unique (database unique column). -/
theorem expired_token_frame (db : DB) (s : String) (now : Int) (t : Token) (e : Int)
    (hTok : (db.tokens.map Token.token).Nodup)
    (hmem : t ∈ db.tokens) (hts : t.token = s) (hact : t.is_active = true)
    (hexp : t.expires_at = some e) (hlt : e < now) :
    validate_token_and_get_user db s now = (none, db) := by
  have hpt : (t.token == s && t.is_active) = true := by simp [hts, hact]
  have hsome : (db.tokens.find? (fun x => x.token == s && x.is_active)).isSome = true :=
    List.find?_isSome.mpr ⟨t, hmem, hpt⟩
  obtain ⟨t', hfind⟩ := Option.isSome_iff_exists.mp hsome
  have ht'mem : t' ∈ db.tokens := List.mem_of_find?_eq_some hfind
  have hp' : t'.token = s ∧ t'.is_active = true := by
    have h := List.find?_some hfind
    simpa using h
  have ht't : t' = t :=
    List.inj_on_of_nodup_map hTok ht'mem hmem (by rw [hp'.1, hts])
  subst ht't
  have hexpB : isExpired t' now = true := by
    simp [isExpired, hexp, hlt]
  simp [validate_token_and_get_user, get_token_by_string, hfind, hexpB]

/-- Witness for C5: a token expired at time 3, validated at time 5, is
rejected and the concrete store is unchanged. -/
theorem expired_token_frame_witness :
    validate_token_and_get_user
      ⟨[sampleUser 1 "alice" "h" true],
        [sampleToken 7 "user:alice:0123456789ab" 1 true (some 3)]⟩
      "user:alice:0123456789ab" 5 =
      (none, ⟨[sampleUser 1 "alice" "h" true],
        [sampleToken 7 "user:alice:0123456789ab" 1 true (some 3)]⟩) :=
  expired_token_frame
    ⟨[sampleUser 1 "alice" "h" true],
      [sampleToken 7 "user:alice:0123456789ab" 1 true (some 3)]⟩
    "user:alice:0123456789ab" 5 (sampleToken 7 "user:alice:0123456789ab" 1 true (some 3))
    3 (by decide) (by decide) (by decide) (by decide) (by decide) (by decide)

/-- C3: `login` fails with invalid-credentials when no stored account
carries the username with a verifying password; fails with
inactive-account when the account exists, the password verifies, but the
account is inactive; and otherwise succeeds with the account and a
session token whose subject claim is the username.  Usernames are
assumed unique (database unique column). -/
theorem login_spec (db : DB) (u p : String) (now : Int)
    (hU : (db.users.map User.username).Nodup) :
    match login db u p now with
    | .error .invalidCredentials =>
        ¬ ∃ acc ∈ db.users, acc.username = u ∧
          verify_password p acc.hashed_password = true
    | .error .inactiveAccount =>
        ∃ acc ∈ db.users, acc.username = u ∧
          verify_password p acc.hashed_password = true ∧ acc.is_active = false
    | .ok res =>
        res.1 ∈ db.users ∧ res.1.username = u ∧
          verify_password p res.1.hashed_password = true ∧
          res.1.is_active = true ∧ jwtSub res.2 = some u := by
  cases hfind : db.users.find? (fun x => x.username == u) with
  | none =>
    have hlogin : login db u p now = .error .invalidCredentials := by
      simp [login, authenticate_user, get_user_by_username, hfind]
    rw [hlogin]
    rintro ⟨acc, hacc, hun, -⟩
    exact absurd (by simp [hun] : (acc.username == u) = true)
      (by simpa using List.find?_eq_none.mp hfind acc hacc)
  | some acc =>
    have haccu : acc.username = u := by
      have h := List.find?_some hfind
      simpa using h
    have hmem : acc ∈ db.users := List.mem_of_find?_eq_some hfind
    cases hv : verify_password p acc.hashed_password with
    | false =>
      have hlogin : login db u p now = .error .invalidCredentials := by
        simp [login, authenticate_user, get_user_by_username, hfind, hv]
      rw [hlogin]
      rintro ⟨acc', hacc', hun', hv'⟩
      have : acc' = acc :=
        List.inj_on_of_nodup_map hU hacc' hmem (by rw [hun', haccu])
      subst this
      rw [hv] at hv'
      exact Bool.noConfusion hv'
    | true =>
      cases hact : acc.is_active with
      | false =>
        have hlogin : login db u p now = .error .inactiveAccount := by
          simp [login, authenticate_user, get_user_by_username, hfind, hv, hact]
        rw [hlogin]
        exact ⟨acc, hmem, haccu, hv, hact⟩
      | true =>
        have hlogin : login db u p now =
            .ok (acc, create_access_token (some acc.username) none now) := by
          simp [login, authenticate_user, get_user_by_username, hfind, hv, hact]
        rw [hlogin]
        exact ⟨hmem, haccu, hv, hact, by rw [haccu]; rfl⟩

/-- Witness for C3: logging in with the correct password on a concrete
active account yields the account and a token with that subject. -/
theorem login_spec_witness :
    match login ⟨[sampleUser 1 "alice" (get_password_hash "pw") true], []⟩
        "alice" "pw" 0 with
    | .error .invalidCredentials =>
        ¬ ∃ acc ∈ [sampleUser 1 "alice" (get_password_hash "pw") true],
          acc.username = "alice" ∧ verify_password "pw" acc.hashed_password = true
    | .error .inactiveAccount =>
        ∃ acc ∈ [sampleUser 1 "alice" (get_password_hash "pw") true],
          acc.username = "alice" ∧ verify_password "pw" acc.hashed_password = true ∧
            acc.is_active = false
    | .ok res =>
        res.1 ∈ [sampleUser 1 "alice" (get_password_hash "pw") true] ∧
          res.1.username = "alice" ∧
          verify_password "pw" res.1.hashed_password = true ∧
          res.1.is_active = true ∧ jwtSub res.2 = some "alice" :=
  login_spec ⟨[sampleUser 1 "alice" (get_password_hash "pw") true], []⟩
    "alice" "pw" 0 (by decide)

/-- C10: the password check precedes the active check.  A wrong password
on an inactive account yields invalid-credentials, and inactive-account
is produced only when the supplied password verifies. -/
theorem login_password_before_active (db : DB) (u p : String) (now : Int)
    (hU : (db.users.map User.username).Nodup) :
    (∀ acc ∈ db.users, acc.username = u → acc.is_active = false →
      verify_password p acc.hashed_password = false →
      login db u p now = .error .invalidCredentials)
    ∧ (login db u p now = .error .inactiveAccount →
        ∃ acc ∈ db.users, acc.username = u ∧
          verify_password p acc.hashed_password = true ∧ acc.is_active = false) := by
  have hmain := login_spec db u p now hU
  constructor
  · intro acc hacc hun hact hv
    cases hlogin : login db u p now with
    | error err =>
      cases err with
      | invalidCredentials => rfl
      | inactiveAccount =>
        rw [hlogin] at hmain
        obtain ⟨acc', hacc', hun', hv', -⟩ := hmain
        have : acc' = acc :=
          List.inj_on_of_nodup_map hU hacc' hacc (by rw [hun', hun])
        subst this
        rw [hv] at hv'
        exact Bool.noConfusion hv'
    | ok res =>
      rw [hlogin] at hmain
      obtain ⟨hres, hun', hv', -, -⟩ := hmain
      have : res.1 = acc :=
        List.inj_on_of_nodup_map hU hres hacc (by rw [hun', hun])
      rw [this] at hv'
      rw [hv] at hv'
      exact Bool.noConfusion hv'
  · intro hlogin
    rw [hlogin] at hmain
    exact hmain

/-- Witness for C10: a wrong password on a concrete inactive account is
reported as invalid credentials, not as an inactive account. -/
theorem login_password_before_active_witness :
    login ⟨[sampleUser 1 "alice" (get_password_hash "pw") false], []⟩
        "alice" "wrong" 0 = .error .invalidCredentials :=
  (login_password_before_active
      ⟨[sampleUser 1 "alice" (get_password_hash "pw") false], []⟩
      "alice" "wrong" 0 (by decide)).1
    (sampleUser 1 "alice" (get_password_hash "pw") false) (by decide) (by decide)
    (by decide) (by decide)

/-- C4: `verify_token` returns the claims exactly when the token is a
well-formed JWT signed under the configured secret and algorithm whose
expiry is still in the future; every failure — malformed token, wrong
secret or algorithm, expiry not in the future — yields none rather than
an error.  A token issued with a negative ttl fails verification at any
later instant. -/
theorem verify_token_spec (tok : JwtWire) (now : Int) :
    ((verify_token tok now).isSome = true ↔
      ∃ c, tok = .signed c JWT_SECRET_KEY JWT_ALGORITHM ∧ now < c.exp)
    ∧ (∀ c, verify_token tok now = some c →
        tok = .signed c JWT_SECRET_KEY JWT_ALGORITHM ∧ now < c.exp)
    ∧ (∀ sub d now0 now1, d < 0 → now0 ≤ now1 →
        verify_token (create_access_token sub (some d) now0) now1 = none) := by
  refine ⟨?_, ?_, ?_⟩
  · cases tok with
    | malformed raw =>
      simp [verify_token, jwtDecode]
    | signed c sec alg =>
      rw [verify_token, jwtDecode]
      by_cases hcond : sec = JWT_SECRET_KEY ∧ alg ∈ [JWT_ALGORITHM] ∧ now < c.exp
      · rw [if_pos hcond]
        have halg : alg = JWT_ALGORITHM := by simpa using hcond.2.1
        exact iff_of_true rfl ⟨c, by rw [hcond.1, halg], hcond.2.2⟩
      · rw [if_neg hcond]
        constructor
        · intro hfalse; simp at hfalse
        · rintro ⟨c', hc', hlt⟩
          cases hc'
          exact absurd ⟨rfl, by simp, hlt⟩ hcond
  · intro c hc
    cases tok with
    | malformed raw => simp [verify_token, jwtDecode] at hc
    | signed c' sec alg =>
      rw [verify_token, jwtDecode] at hc
      by_cases hcond : sec = JWT_SECRET_KEY ∧ alg ∈ [JWT_ALGORITHM] ∧ now < c'.exp
      · rw [if_pos hcond] at hc
        cases hc
        have halg : alg = JWT_ALGORITHM := by simpa using hcond.2.1
        rw [hcond.1, halg]
        exact ⟨rfl, hcond.2.2⟩
      · rw [if_neg hcond] at hc
        exact Option.noConfusion hc
  · intro sub d now0 now1 hd hle
    have hdne : ¬ d = 0 := by omega
    rw [create_access_token]
    simp only [hdne, if_false]
    rw [verify_token, jwtEncode, jwtDecode, if_neg]
    rintro ⟨-, -, hlt⟩
    have hexp : ({ sub := sub, exp := now0 + d } : Claims).exp = now0 + d := rfl
    rw [hexp] at hlt
    omega

/-- Witness for C4: a token issued at time 100 with ttl -1 is rejected
when verified at time 100. -/
theorem verify_token_spec_witness :
    verify_token (create_access_token (some "alice") (some (-1)) 100) 100 = none :=
  (verify_token_spec (.malformed "") 0).2.2 (some "alice") (-1) 100 100
    (by decide) (by decide)

/-- C6: `validate_jwt_and_get_user` returns none exactly when codec
verification fails, the subject claim is absent, or no stored account
carries the subject username; otherwise it returns the stored account
with that username — with no check of the account's active flag, so an
inactive account is still returned.  Usernames are assumed unique
(database unique column). -/
theorem validate_jwt_spec (db : DB) (tok : JwtWire) (now : Int)
    (hU : (db.users.map User.username).Nodup) :
    ((validate_jwt_and_get_user db tok now).1 = none ↔
      verify_token tok now = none
      ∨ (∃ c, verify_token tok now = some c ∧ c.sub = none)
      ∨ (∃ c name, verify_token tok now = some c ∧ c.sub = some name ∧
          ¬ ∃ u ∈ db.users, u.username = name))
    ∧ (∀ u, (validate_jwt_and_get_user db tok now).1 = some u →
        u ∈ db.users ∧ ∃ c name, verify_token tok now = some c ∧
          c.sub = some name ∧ u.username = name)
    ∧ (∀ c name u, verify_token tok now = some c → c.sub = some name →
        u ∈ db.users → u.username = name → u.is_active = false →
        (validate_jwt_and_get_user db tok now).1 = some u) := by
  cases hv : verify_token tok now with
  | none =>
    have hres : (validate_jwt_and_get_user db tok now).1 = none := by
      simp [validate_jwt_and_get_user, hv]
    refine ⟨by simp [hres], ?_, ?_⟩
    · intro u hu; rw [hres] at hu; exact Option.noConfusion hu
    · intro c name u hc _ _ _ _
      exact Option.noConfusion hc
  | some c =>
    cases hs : c.sub with
    | none =>
      have hres : (validate_jwt_and_get_user db tok now).1 = none := by
        simp [validate_jwt_and_get_user, hv, hs]
      refine ⟨?_, ?_, ?_⟩
      · rw [hres]
        exact iff_of_true rfl (Or.inr (Or.inl ⟨c, rfl, hs⟩))
      · intro u hu; rw [hres] at hu; exact Option.noConfusion hu
      · intro c' name u hc' hsub' _ _ _
        cases hc'
        rw [hs] at hsub'; exact Option.noConfusion hsub'
    | some name =>
      have hres : (validate_jwt_and_get_user db tok now).1 =
          db.users.find? (fun x => x.username == name) := by
        simp [validate_jwt_and_get_user, hv, hs, get_user_by_username]
      cases hfind : db.users.find? (fun x => x.username == name) with
      | none =>
        rw [hfind] at hres
        refine ⟨?_, ?_, ?_⟩
        · rw [hres]
          refine iff_of_true rfl (Or.inr (Or.inr ⟨c, name, rfl, hs, ?_⟩))
          rintro ⟨u, hu, hun⟩
          exact absurd (by simp [hun] : (u.username == name) = true)
            (by simpa using List.find?_eq_none.mp hfind u hu)
        · intro u hu; rw [hres] at hu; exact Option.noConfusion hu
        · intro c' name' u hc' hsub' humem hun _
          cases hc'
          rw [hs] at hsub'; cases hsub'
          exact absurd (by simp [hun] : (u.username == name) = true)
            (by simpa using List.find?_eq_none.mp hfind u humem)
      | some u0 =>
        rw [hfind] at hres
        have hu0mem : u0 ∈ db.users := List.mem_of_find?_eq_some hfind
        have hu0n : u0.username = name := by
          have h := List.find?_some hfind
          simpa using h
        refine ⟨?_, ?_, ?_⟩
        · rw [hres]
          refine iff_of_false (by simp) ?_
          rintro (h1 | ⟨c', hc', hsub'⟩ | ⟨c', name', hc', hsub', hne⟩)
          · exact Option.noConfusion h1
          · cases hc'
            rw [hs] at hsub'; exact Option.noConfusion hsub'
          · cases hc'
            rw [hs] at hsub'; cases hsub'
            exact hne ⟨u0, hu0mem, hu0n⟩
        · intro u hu
          rw [hres] at hu
          cases hu
          exact ⟨hu0mem, c, name, rfl, hs, hu0n⟩
        · intro c' name' u hc' hsub' humem hun _
          cases hc'
          rw [hs] at hsub'; cases hsub'
          have : u = u0 :=
            List.inj_on_of_nodup_map hU humem hu0mem (by rw [hun, hu0n])
          rw [hres, this]

/-- Witness for C6: a valid session token for a concrete account with
`is_active = false` still resolves to that account. -/
theorem validate_jwt_spec_witness :
    (validate_jwt_and_get_user ⟨[sampleUser 1 "bob" "h" false], []⟩
      (.signed ⟨some "bob", 1800⟩ JWT_SECRET_KEY JWT_ALGORITHM) 0).1 =
      some (sampleUser 1 "bob" "h" false) :=
  (validate_jwt_spec ⟨[sampleUser 1 "bob" "h" false], []⟩
      (.signed ⟨some "bob", 1800⟩ JWT_SECRET_KEY JWT_ALGORITHM) 0 (by decide)).2.2
    ⟨some "bob", 1800⟩ "bob" (sampleUser 1 "bob" "h" false)
    (by decide) (by decide) (by decide) (by decide) (by decide)

/-- C7: `generate_token` produces exactly `user:<username>:<suffix>` with
a suffix of exactly 12 lowercase hexadecimal characters, given that
`uuid.uuid4().hex` is a 32-character lowercase-hex string. -/
theorem generate_token_format (username uuidHex : String)
    (hlen : uuidHex.toList.length = 32)
    (hhex : uuidHex.toList.all isLowerHexChar = true) :
    ∃ suffix : String,
      generate_token username uuidHex = "user:" ++ username ++ ":" ++ suffix ∧
        suffix.toList.length = 12 ∧ suffix.toList.all isLowerHexChar = true := by
  refine ⟨String.mk (uuidHex.toList.take 12), rfl, ?_, ?_⟩
  · show (uuidHex.toList.take 12).length = 12
    rw [List.length_take, hlen]
    decide
  · show (uuidHex.toList.take 12).all isLowerHexChar = true
    exact all_take isLowerHexChar uuidHex.toList 12 hhex

/-- Witness for C7: the format on a concrete username and uuid hex. -/
theorem generate_token_format_witness :
    ∃ suffix : String,
      generate_token "bob" "9f86d081884c7d659a2feaa0c55ad015" =
        "user:" ++ "bob" ++ ":" ++ suffix ∧
        suffix.toList.length = 12 ∧ suffix.toList.all isLowerHexChar = true :=
  generate_token_format "bob" "9f86d081884c7d659a2feaa0c55ad015"
    (by decide) (by decide)

/-- C8: password hashing is deterministic, and verification succeeds
exactly on hash equality: `verify_password p (hash p)` always holds, and
`verify_password p2 (hash p1)` fails whenever the two hashes differ. -/
theorem password_hash_spec (p p1 p2 h : String) :
    get_password_hash p = get_password_hash p
    ∧ (verify_password p h = true ↔ get_password_hash p = h)
    ∧ verify_password p (get_password_hash p) = true
    ∧ (get_password_hash p1 ≠ get_password_hash p2 →
        verify_password p2 (get_password_hash p1) = false) := by
  refine ⟨rfl, ?_, ?_, ?_⟩
  · simp [verify_password]
  · simp [verify_password]
  · intro hne
    rw [verify_password]
    exact beq_eq_false_iff_ne.mpr fun heq => hne heq.symm

/-- Witness for C8: two concrete passwords with distinct digests do not
cross-verify. -/
theorem password_hash_spec_witness :
    verify_password "b" (get_password_hash "a") = false :=
  (password_hash_spec "x" "a" "b" "y").2.2.2 (by decide)

/-- C9: `validate_jwt_and_get_user` never writes: the session state comes
back unchanged whatever the token and store — unlike
`validate_token_and_get_user`, which on a concrete successful validation
returns a changed store (the `last_used_at` touch). -/
theorem validate_jwt_readonly (db : DB) (tok : JwtWire) (now : Int) :
    (validate_jwt_and_get_user db tok now).2 = db
    ∧ (validate_token_and_get_user
        ⟨[sampleUser 1 "carol" "h" true],
          [sampleToken 9 "user:carol:0123456789ab" 1 true none]⟩
        "user:carol:0123456789ab" 5).2 ≠
      ⟨[sampleUser 1 "carol" "h" true],
        [sampleToken 9 "user:carol:0123456789ab" 1 true none]⟩ := by
  constructor
  · cases hv : verify_token tok now with
    | none => simp [validate_jwt_and_get_user, hv]
    | some payload =>
      cases hsub : payload.sub with
      | none => simp [validate_jwt_and_get_user, hv, hsub]
      | some username => simp [validate_jwt_and_get_user, hv, hsub]
  · decide

end CelliumAuth
